import Mathlib

/-!
Verification of the Travel-Companion stop-ordering and date-overlap core.

The Python source is embedded shallowly:
* `datetime.date` values are modelled as `Int` day ordinals (proleptic
  ordinal numbers); `date` comparison corresponds to `Int` comparison and
  `(d2 - d1).days` corresponds to `d2 - d1`.
* functions that `raise ValueError` / `HTTPException` are modelled as
  `Except String` computations carrying the message text; interpolated
  values are rendered with `toString` (the single quotes Python prints
  around stop names are elided, since no claim depends on them).
* SQLAlchemy rows are modelled as records, the stops table as a
  `List Stop`, and queries as list filters.
-/

namespace TravelCompanion

/-- A row of the `stops` table (`app/models/stop.py`).  `latitude` and
`longitude` are SQL floats holding coordinate values; they are modelled
as exact rationals. -/
structure Stop where
  id : Int
  trip_id : Int
  name : String
  country : Option String
  start_date : Int
  end_date : Int
  order_index : Int
  latitude : Option ℚ
  longitude : Option ℚ
  notes : Option String
deriving DecidableEq, Repr

/-- A row of the `trips` table (`app/models/trip.py`). -/
structure Trip where
  id : Int
  title : String
  start_date : Int
  end_date : Int
  user_id : Int
deriving DecidableEq, Repr

/-! ## Pure validators (`app/validators/stop_validators.py`) -/

/-- `validate_unique_ids` (stop_validators.py lines 103-107):
`len(stop_ids) != len(set(stop_ids))` raises; the size of the Python set
is the length of the deduplicated list. -/
def validate_unique_ids (stop_ids : List Int) : Except String (List Int) :=
  if stop_ids.length ≠ stop_ids.dedup.length then
    Except.error "stop_ids must not contain duplicates"
  else
    Except.ok stop_ids

/-- The message raised by `validate_date_overlap` (lines 141-145). -/
def overlapMessage (stop_name : String) (overlap_days overlap_start overlap_end max_overlap_days : Int) : String :=
  "Stop dates overlap with " ++ stop_name ++ " by " ++ toString overlap_days ++
    " days (" ++ toString overlap_start ++ " to " ++ toString overlap_end ++
    "). Maximum allowed overlap is " ++ toString max_overlap_days ++
    " day(s) for transition."

/-- `validate_date_overlap` (stop_validators.py lines 110-145): iterate the
existing stops in order; for each, `overlap_start = max(start_date, existing_start)`,
`overlap_end = min(end_date, existing_end)`; when `overlap_start <= overlap_end`
the overlap is `(overlap_end - overlap_start).days + 1` days, and the first
stop whose overlap exceeds `max_overlap_days` raises.  The service calls it
with the default `max_overlap_days = 1`. -/
def validate_date_overlap (start_date end_date : Int)
    (existing_stops : List (Int × Int × String))
    (max_overlap_days : Int) : Except String Unit :=
  match existing_stops with
  | [] => Except.ok ()
  | (existing_start, existing_end, stop_name) :: rest =>
    let overlap_start := max start_date existing_start
    let overlap_end := min end_date existing_end
    if overlap_start ≤ overlap_end then
      let overlap_days := overlap_end - overlap_start + 1
      if overlap_days > max_overlap_days then
        Except.error (overlapMessage stop_name overlap_days overlap_start overlap_end max_overlap_days)
      else
        validate_date_overlap start_date end_date rest max_overlap_days
    else
      validate_date_overlap start_date end_date rest max_overlap_days

/-- The message raised by `validate_dates_within_range` (lines 168-171). -/
def withinRangeMessage (range_name : String) (range_start range_end : Int) : String :=
  "Dates must be within " ++ range_name ++ " dates (" ++ toString range_start ++
    " to " ++ toString range_end ++ ")"

/-- `validate_dates_within_range` (stop_validators.py lines 148-171):
raises iff `start_date < range_start or end_date > range_end`. -/
def validate_dates_within_range (start_date end_date range_start range_end : Int)
    (range_name : String) : Except String Unit :=
  if start_date < range_start ∨ end_date > range_end then
    Except.error (withinRangeMessage range_name range_start range_end)
  else
    Except.ok ()

/-! ## Repository queries (`app/repositories/stop_repository.py`)

The stops table is a `List Stop`; a SQLAlchemy `filter` is a list filter.
The `exclude_stop_id` guards are written `if exclude_stop_id:` in the
source, which is Python truthiness: the filter is skipped both for `None`
and for the id `0`. -/

/-- Python truthiness of an `Optional[int]`: `None` and `0` are falsy. -/
def pyTruthy : Option Int → Bool
  | none => false
  | some v => decide (v ≠ 0)

/-- `get_stops_with_date_overlap` (stop_repository.py lines 167-207):
rows of the trip (minus the truthy exclusion) whose range intersects
`[start_date, end_date]`, projected to `(start_date, end_date, name)`. -/
def get_stops_with_date_overlap (stops : List Stop) (trip_id : Int)
    (start_date end_date : Int) (exclude_stop_id : Option Int) :
    List (Int × Int × String) :=
  let q1 := stops.filter fun s => decide (s.trip_id = trip_id)
  let q2 :=
    if pyTruthy exclude_stop_id then
      q1.filter fun s => decide (s.id ≠ exclude_stop_id.getD 0)
    else q1
  let q3 := q2.filter fun s =>
    decide (s.start_date ≤ end_date) && decide (start_date ≤ s.end_date)
  q3.map fun s => (s.start_date, s.end_date, s.name)

/-- `order_index_exists` (stop_repository.py lines 209-237): is there a row
of the trip (minus the truthy exclusion) holding `order_index`? -/
def order_index_exists (stops : List Stop) (trip_id order_index : Int)
    (exclude_stop_id : Option Int) : Bool :=
  stops.any fun s =>
    decide (s.trip_id = trip_id) && decide (s.order_index = order_index) &&
      (if pyTruthy exclude_stop_id then decide (s.id ≠ exclude_stop_id.getD 0)
       else true)

/-- `bulk_update_order_indices` (stop_repository.py lines 254-271): for each
`(stop_id, new_order)` pair in turn, the row with that primary key gets
`order_index := new_order`. -/
def bulk_update_order_indices (stops : List Stop)
    (mapping : List (Int × Int)) : List Stop :=
  mapping.foldl
    (fun acc p =>
      acc.map fun s => if s.id = p.1 then { s with order_index := p.2 } else s)
    stops

/-- The association list built by a Python dict comprehension
`\x7bstop_id: f(i) for i, stop_id in enumerate(stop_ids)\x7d`, keys in
insertion order.  (Python collapses duplicate keys keeping the last value;
reads of the model below likewise take the last matching entry.) -/
def enumMapping (f : Nat → Int) : List Int → Nat → List (Int × Int)
  | [], _ => []
  | sid :: rest, i => (sid, f i) :: enumMapping f rest (i + 1)

/-- Phase 1 of the reorder (stop_service.py line 445):
`\x7bstop_id: -(i + 1) for i, stop_id in enumerate(stop_ids)\x7d`. -/
def temp_mapping (stop_ids : List Int) : List (Int × Int) :=
  enumMapping (fun i => -((i : Int) + 1)) stop_ids 0

/-- Phase 2 of the reorder (stop_service.py line 449):
`\x7bstop_id: i for i, stop_id in enumerate(stop_ids)\x7d`. -/
def final_mapping (stop_ids : List Int) : List (Int × Int) :=
  enumMapping (fun i => (i : Int)) stop_ids 0

/-- Python rendering of a sorted id list, e.g. `[1, 4]`. -/
def renderIntList (l : List Int) : String :=
  "[" ++ String.intercalate ", " (l.map toString) ++ "]"

/-- `sorted(a - b)` for Python sets built from the two lists: the
ascending, duplicate-free list of elements of `a` not in `b`. -/
def set_diff_sorted (a b : List Int) : List Int :=
  List.insertionSort (· ≤ ·) ((a.filter fun x => decide (x ∉ b)).dedup)

/-- The rejection detail of `reorder_stops` (stop_service.py lines 429-439):
`"; ".join` of the missing-ids part and the invalid-ids part, each present
only when its list is non-empty. -/
def reorderErrorMessage (missing extra : List Int) : String :=
  String.intercalate "; "
    ((if missing ≠ [] then ["Missing stop IDs: " ++ renderIntList missing]
      else []) ++
     (if extra ≠ [] then
        ["Invalid stop IDs (not in this trip): " ++ renderIntList extra]
      else []))

/-- `StopService.reorder_stops` (stop_service.py lines 389-455), acting on
the stops table and returning the new table.  The set comparison
`set(stop_ids) != stop_ids_in_db` is mutual membership of the two id
lists; on mismatch the request is rejected and nothing is written.  On
match, phase 1 writes the temporary indices and phase 2 the final ones.
(The service then re-reads the trip's stops ordered by `order_index` for
the response; the returned value here is the table state itself.) -/
def stop_ids_in_db (stops : List Stop) (trip_id : Int) : List Int :=
  (stops.filter fun s => decide (s.trip_id = trip_id)).map (·.id)

def reorder_stops (stops : List Stop) (trip_id : Int) (stop_ids : List Int) :
    Except String (List Stop) :=
  let ids_db := stop_ids_in_db stops trip_id
  if (stop_ids.all fun x => decide (x ∈ ids_db)) &&
      (ids_db.all fun x => decide (x ∈ stop_ids)) then
    let after_phase1 := bulk_update_order_indices stops (temp_mapping stop_ids)
    let after_phase2 :=
      bulk_update_order_indices after_phase1 (final_mapping stop_ids)
    Except.ok after_phase2
  else
    Except.error
      (reorderErrorMessage (set_diff_sorted ids_db stop_ids)
        (set_diff_sorted stop_ids ids_db))

/-- The reorder endpoint pipeline: the request body is parsed as
`StopReorder` (app/schemas/stop.py lines 150-157), whose field validator
`validate_unique_ids` rejects duplicate ids before the service's
set-equality comparison runs; then `reorder_stops` is applied. -/
def reorder_request (stops : List Stop) (trip_id : Int)
    (stop_ids : List Int) : Except String (List Stop) :=
  match validate_unique_ids stop_ids with
  | Except.error e => Except.error e
  | Except.ok ids => reorder_stops stops trip_id ids

/-! ## Characterization of the two-phase bulk update -/

/-- Reading a Python dict as an association list: the value of the last
entry whose key is `i`, defaulting to `d`. -/
def lookupLastD (mapping : List (Int × Int)) (i d : Int) : Int :=
  mapping.foldl (fun acc p => if p.1 = i then p.2 else acc) d

/-- The net effect of the two reorder phases on a single row: the final
index of a listed id (via `final_mapping`), threading the phase-1 value as
the (dead) default; an unlisted row keeps its index. -/
def reorderAssign (stop_ids : List Int) (s : Stop) : Stop :=
  { s with
    order_index :=
      lookupLastD (final_mapping stop_ids) s.id
        (lookupLastD (temp_mapping stop_ids) s.id s.order_index) }

/-- A concrete trip used by the witnesses below. -/
def demoTrip : Trip :=
  { id := 1, title := "Japan", start_date := 0, end_date := 30, user_id := 7 }

/-- Concrete stops of `demoTrip` used by the witnesses below. -/
def demoStops : List Stop :=
  [{ id := 1, trip_id := 1, name := "Tokyo", country := none, start_date := 1,
     end_date := 5, order_index := 0, latitude := none, longitude := none,
     notes := none },
   { id := 2, trip_id := 1, name := "Kyoto", country := none, start_date := 5,
     end_date := 9, order_index := 1, latitude := none, longitude := none,
     notes := none },
   { id := 3, trip_id := 1, name := "Osaka", country := none, start_date := 9,
     end_date := 12, order_index := 2, latitude := none, longitude := none,
     notes := none }]

/-- The demo stops after `reorder_stops demoStops 1 [3, 1, 2]`. -/
def demoStopsReordered : List Stop :=
  [{ id := 1, trip_id := 1, name := "Tokyo", country := none, start_date := 1,
     end_date := 5, order_index := 1, latitude := none, longitude := none,
     notes := none },
   { id := 2, trip_id := 1, name := "Kyoto", country := none, start_date := 5,
     end_date := 9, order_index := 2, latitude := none, longitude := none,
     notes := none },
   { id := 3, trip_id := 1, name := "Osaka", country := none, start_date := 9,
     end_date := 12, order_index := 0, latitude := none, longitude := none,
     notes := none }]

/-! ## Coordinate validation (`app/validators/stop_validators.py` lines 25-100) -/

/-- The country-mismatch message of `validate_realistic_coordinates`. -/
def countryMismatchMessage (la lo : ℚ) (c : String) : String :=
  "Coordinates (" ++ toString la ++ ", " ++ toString lo ++
    ") do not appear to be in " ++ c ++ ". Please verify your location."

/-- `validate_realistic_coordinates`: rejects null-island, the placeholder
pairs, and coordinates outside rough country boxes.  The `if country:`
guard is Python truthiness, so an empty country string skips the check. -/
def validate_realistic_coordinates (lat lon : Option ℚ)
    (country : Option String) : Except String Unit :=
  match lat, lon with
  | some la, some lo =>
    if la = 0 ∧ lo = 0 then
      Except.error
        "Coordinates (0, 0) appear to be a placeholder. Please provide the actual location coordinates."
    else if (la, lo) ∈ ([(0, 0), (1, 1), (90, 0), (-90, 0)] : List (ℚ × ℚ)) then
      Except.error ("Coordinates (" ++ toString la ++ ", " ++ toString lo ++
        ") appear to be a placeholder value. Please provide actual location coordinates.")
    else
      match country with
      | some c =>
        if c = "" then Except.ok ()
        else if c.toLower = "israel" ∨ c.toLower = "il" then
          if ¬ (29 ≤ la ∧ la ≤ 33.5 ∧ 34 ≤ lo ∧ lo ≤ 36) then
            Except.error (countryMismatchMessage la lo c)
          else Except.ok ()
        else if c.toLower = "japan" ∨ c.toLower = "jp" then
          if ¬ (24 ≤ la ∧ la ≤ 46 ∧ 123 ≤ lo ∧ lo ≤ 154) then
            Except.error (countryMismatchMessage la lo c)
          else Except.ok ()
        else if c.toLower = "united states" ∨ c.toLower = "usa" ∨ c.toLower = "us" then
          if ¬ ((25 ≤ la ∧ la ≤ 49 ∧ -125 ≤ lo ∧ lo ≤ -66) ∨
                (51 ≤ la ∧ la ≤ 72 ∧ -180 ≤ lo ∧ lo ≤ -130) ∨
                (18 ≤ la ∧ la ≤ 23 ∧ -161 ≤ lo ∧ lo ≤ -154)) then
            Except.error (countryMismatchMessage la lo c)
          else Except.ok ()
        else Except.ok ()
      | none => Except.ok ()
  | _, _ => Except.ok ()

/-! ## Create and update (`app/services/stop_service.py`) -/

/-- The duplicate-index detail of `validate_order_index_unique`
(stop_service.py lines 150-154). -/
def duplicateIndexMessage (order_index : Int) : String :=
  "Stop with order_index " ++ toString order_index ++
    " already exists in this trip"

/-- The request body of `POST /trips/:id/stops` (`StopCreate`,
app/schemas/stop.py), after the schema-level Pydantic validation. -/
structure StopCreate where
  name : String
  country : Option String
  start_date : Int
  end_date : Int
  order_index : Int
  latitude : Option ℚ
  longitude : Option ℚ
  notes : Option String
deriving DecidableEq, Repr

/-- `StopService.create_stop` (stop_service.py lines 173-239) on the
stops table, returning the new table.  Trip existence and the schema
validations have already happened upstream; `new_id` is the key the
database generates for the inserted row. -/
def create_stop (trip : Trip) (stops : List Stop) (d : StopCreate)
    (new_id : Int) : Except String (List Stop) :=
  match validate_dates_within_range d.start_date d.end_date trip.start_date
      trip.end_date "trip" with
  | Except.error e => Except.error e
  | Except.ok _ =>
    match validate_date_overlap d.start_date d.end_date
        (get_stops_with_date_overlap stops trip.id d.start_date d.end_date
          none) 1 with
    | Except.error e => Except.error e
    | Except.ok _ =>
      if order_index_exists stops trip.id d.order_index none then
        Except.error (duplicateIndexMessage d.order_index)
      else
        Except.ok (stops ++
          [{ id := new_id, trip_id := trip.id, name := d.name,
             country := d.country, start_date := d.start_date,
             end_date := d.end_date, order_index := d.order_index,
             latitude := d.latitude, longitude := d.longitude,
             notes := d.notes }])

/-- The request body of `PUT /trips/:i/stops/:j` (`StopUpdate`,
app/schemas/stop.py): every field optional.  An outer `none` means the
field was not sent (Pydantic `exclude_unset`); for the nullable columns an
inner `none` models an explicit `null`. -/
structure StopUpdate where
  name : Option String
  country : Option (Option String)
  start_date : Option Int
  end_date : Option Int
  order_index : Option Int
  latitude : Option (Option ℚ)
  longitude : Option (Option ℚ)
  notes : Option (Option String)
deriving DecidableEq, Repr

/-- `repo.update_stop(stop_id, **update_data)`: apply exactly the supplied
fields of the patch to a row. -/
def applyStopUpdate (u : StopUpdate) (s : Stop) : Stop :=
  { s with
    name := u.name.getD s.name,
    country := u.country.getD s.country,
    start_date := u.start_date.getD s.start_date,
    end_date := u.end_date.getD s.end_date,
    order_index := u.order_index.getD s.order_index,
    latitude := u.latitude.getD s.latitude,
    longitude := u.longitude.getD s.longitude,
    notes := u.notes.getD s.notes }

/-- `StopService.update_stop` (stop_service.py lines 271-358) on the stops
table, returning the new table: look the stop up by id and trip, merge the
patch onto it for validation (`final_*`), always re-check containment in
the trip range, re-check overlap only when a date field was sent (excluding
the stop itself), re-check index uniqueness only when `order_index` was
sent, re-check coordinates only when a coordinate/country field was sent,
then write only the patched fields. -/
def update_stop (trip : Trip) (stops : List Stop) (stop_id : Int)
    (u : StopUpdate) : Except String (List Stop) :=
  match stops.find? fun s =>
      decide (s.id = stop_id) && decide (s.trip_id = trip.id) with
  | none =>
    Except.error ("Stop with ID " ++ toString stop_id ++
      " not found in trip " ++ toString trip.id)
  | some stop =>
    let final_start := u.start_date.getD stop.start_date
    let final_end := u.end_date.getD stop.end_date
    let final_lat := u.latitude.getD stop.latitude
    let final_lon := u.longitude.getD stop.longitude
    let final_country := u.country.getD stop.country
    match validate_dates_within_range final_start final_end trip.start_date
        trip.end_date "trip" with
    | Except.error e => Except.error e
    | Except.ok _ =>
      match (if u.start_date.isSome || u.end_date.isSome then
          validate_date_overlap final_start final_end
            (get_stops_with_date_overlap stops trip.id final_start final_end
              (some stop_id)) 1
        else Except.ok ()) with
      | Except.error e => Except.error e
      | Except.ok _ =>
        match (match u.order_index with
          | some oi =>
            if order_index_exists stops trip.id oi (some stop_id) then
              Except.error (duplicateIndexMessage oi)
            else Except.ok ()
          | none => Except.ok ()) with
        | Except.error e => Except.error e
        | Except.ok _ =>
          match (if u.country.isSome || u.latitude.isSome ||
              u.longitude.isSome then
              validate_realistic_coordinates final_lat final_lon final_country
            else Except.ok ()) with
          | Except.error e => Except.error e
          | Except.ok _ =>
            Except.ok (stops.map fun s =>
              if s.id = stop_id then applyStopUpdate u s else s)

/-- The uniqueness invariant of §3: within trip `t`, no two stops share an
`order_index`. -/
def OrderUnique (stops : List Stop) (t : Int) : Prop :=
  stops.Pairwise fun s1 s2 =>
    s1.trip_id = t → s2.trip_id = t → s1.order_index ≠ s2.order_index

/-! ## Trip update (`app/services/trip_service.py`) -/

/-- The request body of `PUT /trips/:id` (`TripUpdate`,
app/schemas/trip.py).  The schema also carries a `destinations` list, but
`Trip` rows have no such column, so applying it writes nothing persistent;
it is omitted here. -/
structure TripUpdate where
  title : Option String
  start_date : Option Int
  end_date : Option Int
deriving DecidableEq, Repr

/-- The detail of `validate_trip_date_range` (trip_service.py lines
203-207). -/
def tripRangeMessage (start_date end_date : Int) : String :=
  "Trip end date (" ++ toString end_date ++
    ") must be after or equal to start date (" ++ toString start_date ++ ")"

/-- `TripService.validate_trip_date_range` (trip_service.py lines
186-207): rejects iff `end_date < start_date`. -/
def validate_trip_date_range (start_date end_date : Int) :
    Except String Unit :=
  if end_date < start_date then
    Except.error (tripRangeMessage start_date end_date)
  else Except.ok ()

/-- `TripService.update_trip` (trip_service.py lines 106-155) together
with the (untouched) stops table: merge the patch onto the trip, validate
only that the merged `end_date >= start_date`, and write the patched trip
fields.  The trip's stops are never read or written. -/
def update_trip (trip : Trip) (stops : List Stop) (u : TripUpdate) :
    Except String (Trip × List Stop) :=
  let new_start := u.start_date.getD trip.start_date
  let new_end := u.end_date.getD trip.end_date
  match validate_trip_date_range new_start new_end with
  | Except.error e => Except.error e
  | Except.ok _ =>
    Except.ok
      ({ trip with
          title := u.title.getD trip.title,
          start_date := new_start,
          end_date := new_end }, stops)

/-- The patch used by the C6 witness: set only `end_date` and `notes`. -/
def demoPatch : StopUpdate :=
  { name := none, country := none, start_date := none, end_date := some 8,
    order_index := none, latitude := none, longitude := none,
    notes := some (some "rail pass") }

/-- The demo stops after applying `demoPatch` to stop 2. -/
def demoStopsPatched : List Stop :=
  [{ id := 1, trip_id := 1, name := "Tokyo", country := none, start_date := 1,
     end_date := 5, order_index := 0, latitude := none, longitude := none,
     notes := none },
   { id := 2, trip_id := 1, name := "Kyoto", country := none, start_date := 5,
     end_date := 8, order_index := 1, latitude := none, longitude := none,
     notes := some "rail pass" },
   { id := 3, trip_id := 1, name := "Osaka", country := none, start_date := 9,
     end_date := 12, order_index := 2, latitude := none, longitude := none,
     notes := none }]

/-- The claim-side test for one existing stop `(s, e, name)`: the
intersection length `min(end_date, e) - max(start_date, s) + 1` is
non-negative and strictly greater than `max_overlap_days`. -/
def overlapTooLarge (start_date end_date max_overlap_days : Int)
    (t : Int × Int × String) : Bool :=
  decide (0 ≤ min end_date t.2.1 - max start_date t.1 + 1) &&
    decide (min end_date t.2.1 - max start_date t.1 + 1 > max_overlap_days)

theorem set_order_index_self (s : Stop) :
    { s with order_index := s.order_index } = s := by
  cases s
  rfl

theorem lookupLastD_cons (p : Int × Int) (ms : List (Int × Int)) (i d : Int) :
    lookupLastD (p :: ms) i d = lookupLastD ms i (if p.1 = i then p.2 else d) := rfl

theorem bulk_update_eq_map (mapping : List (Int × Int)) (stops : List Stop) :
    bulk_update_order_indices stops mapping =
      stops.map fun s =>
        { s with order_index := lookupLastD mapping s.id s.order_index } := by
  induction mapping generalizing stops with
  | nil =>
    have h : (fun s : Stop => { s with order_index := s.order_index }) = id :=
      funext fun s => set_order_index_self s
    simp only [bulk_update_order_indices, List.foldl_nil, lookupLastD,
      h, List.map_id]
  | cons p ms ih =>
    have hcons : bulk_update_order_indices stops (p :: ms) =
        bulk_update_order_indices
          (stops.map fun s =>
            if s.id = p.1 then { s with order_index := p.2 } else s) ms := rfl
    rw [hcons, ih, List.map_map]
    apply List.map_congr_left
    intro s _
    simp only [Function.comp_apply, lookupLastD_cons]
    by_cases h : s.id = p.1
    · rw [if_pos h, if_pos h.symm]
    · rw [if_neg h, if_neg (Ne.symm h)]

theorem enumMapping_keys (f : Nat → Int) (l : List Int) (i : Nat) :
    (enumMapping f l i).map Prod.fst = l := by
  induction l generalizing i with
  | nil => rfl
  | cons a t ih => simp [enumMapping, ih]

theorem lookupLastD_not_mem (mapping : List (Int × Int)) (i d : Int)
    (h : i ∉ mapping.map Prod.fst) : lookupLastD mapping i d = d := by
  induction mapping generalizing d with
  | nil => rfl
  | cons p ms ih =>
    rw [lookupLastD_cons]
    have h1 : p.1 ≠ i := by
      intro he
      exact h (by simp [he])
    rw [if_neg h1]
    exact ih d (fun hm => h (by simp [hm]))

theorem lookupLastD_default_irrel (mapping : List (Int × Int)) (i : Int)
    (h : i ∈ mapping.map Prod.fst) (d d' : Int) :
    lookupLastD mapping i d = lookupLastD mapping i d' := by
  induction mapping generalizing d d' with
  | nil => simp at h
  | cons p ms ih =>
    rw [lookupLastD_cons, lookupLastD_cons]
    by_cases hp : p.1 = i
    · rw [if_pos hp, if_pos hp]
    · rw [if_neg hp, if_neg hp]
      have : i ∈ ms.map Prod.fst := by
        rcases List.mem_map.mp h with ⟨q, hq, hq1⟩
        rcases List.mem_cons.mp hq with rfl | hq2
        · exact absurd hq1 hp
        · exact List.mem_map.mpr ⟨q, hq2, hq1⟩
      exact ih this d d'

theorem enumMapping_lookup (f : Nat → Int) (l : List Int) (hN : l.Nodup)
    (k : Nat) (hk : k < l.length) (i : Nat) (d : Int) :
    lookupLastD (enumMapping f l i) (l.get ⟨k, hk⟩) d = f (i + k) := by
  induction l generalizing i k with
  | nil => exact absurd hk (by simp)
  | cons a t ih =>
    rw [show enumMapping f (a :: t) i = (a, f i) :: enumMapping f t (i + 1)
        from rfl, lookupLastD_cons]
    match k with
    | 0 =>
      have hget : (a :: t).get ⟨0, hk⟩ = a := rfl
      rw [hget, if_pos rfl]
      have hnot : a ∉ (enumMapping f t (i + 1)).map Prod.fst := by
        rw [enumMapping_keys]
        exact (List.nodup_cons.mp hN).1
      rw [lookupLastD_not_mem _ _ _ hnot]
      simp
    | Nat.succ k1 =>
      have hk1 : k1 < t.length := by
        simpa using Nat.lt_of_succ_lt_succ hk
      have hget : (a :: t).get ⟨k1 + 1, hk⟩ = t.get ⟨k1, hk1⟩ := rfl
      rw [hget]
      have hmem : t.get ⟨k1, hk1⟩ ∈ t := List.get_mem t k1 hk1
      have hne : a ≠ t.get ⟨k1, hk1⟩ := by
        intro he
        exact (List.nodup_cons.mp hN).1 (he ▸ hmem)
      rw [if_neg hne]
      rw [ih (List.nodup_cons.mp hN).2 k1 hk1 (i + 1)]
      congr 1
      omega

theorem reorder_phases_eq_map (stop_ids : List Int) (stops : List Stop) :
    bulk_update_order_indices
      (bulk_update_order_indices stops (temp_mapping stop_ids))
      (final_mapping stop_ids) =
    stops.map (reorderAssign stop_ids) := by
  rw [bulk_update_eq_map, bulk_update_eq_map, List.map_map]
  rfl

theorem reorderAssign_id (stop_ids : List Int) (s : Stop) :
    (reorderAssign stop_ids s).id = s.id := rfl

theorem reorderAssign_trip_id (stop_ids : List Int) (s : Stop) :
    (reorderAssign stop_ids s).trip_id = s.trip_id := rfl

theorem reorderAssign_not_mem (stop_ids : List Int) (s : Stop)
    (h : s.id ∉ stop_ids) : reorderAssign stop_ids s = s := by
  unfold reorderAssign
  rw [lookupLastD_not_mem _ _ _ (by rwa [final_mapping, enumMapping_keys]),
    lookupLastD_not_mem _ _ _ (by rwa [temp_mapping, enumMapping_keys])]

theorem reorderAssign_get (stop_ids : List Int) (hN : stop_ids.Nodup)
    (k : Nat) (hk : k < stop_ids.length) (s : Stop)
    (hs : s.id = stop_ids.get ⟨k, hk⟩) :
    (reorderAssign stop_ids s).order_index = (k : Int) := by
  unfold reorderAssign
  show lookupLastD (final_mapping stop_ids) s.id _ = (k : Int)
  rw [hs, final_mapping, enumMapping_lookup _ _ hN k hk 0 _]
  simp

theorem reorderAssign_idem (stop_ids : List Int) (s : Stop) :
    reorderAssign stop_ids (reorderAssign stop_ids s) = reorderAssign stop_ids s := by
  cases s with
  | mk idv tidv nmv cv sdv edv oiv lav lov nov =>
    by_cases h : idv ∈ stop_ids
    · have hkeys : idv ∈ (final_mapping stop_ids).map Prod.fst := by
        rwa [final_mapping, enumMapping_keys]
      simp only [reorderAssign]
      congr 1
      exact lookupLastD_default_irrel _ _ hkeys _ _
    · rw [reorderAssign_not_mem _ _ h, reorderAssign_not_mem _ _ h]

theorem reorder_guard_iff (stops : List Stop) (trip_id : Int)
    (stop_ids : List Int) :
    ((stop_ids.all fun x => decide (x ∈ stop_ids_in_db stops trip_id)) &&
        ((stop_ids_in_db stops trip_id).all fun x => decide (x ∈ stop_ids))) = true ↔
      ((∀ x ∈ stop_ids, x ∈ stop_ids_in_db stops trip_id) ∧
        (∀ x ∈ stop_ids_in_db stops trip_id, x ∈ stop_ids)) := by
  simp [List.all_eq_true]

theorem reorder_stops_ok_iff (stops : List Stop) (trip_id : Int)
    (stop_ids : List Int) (res : List Stop) :
    reorder_stops stops trip_id stop_ids = Except.ok res ↔
      ((stop_ids.all fun x => decide (x ∈ stop_ids_in_db stops trip_id)) &&
        ((stop_ids_in_db stops trip_id).all fun x => decide (x ∈ stop_ids))) = true ∧
      res = stops.map (reorderAssign stop_ids) := by
  unfold reorder_stops
  dsimp only
  split
  next hg =>
    rw [reorder_phases_eq_map]
    constructor
    · intro h
      injection h with h
      exact ⟨hg, h.symm⟩
    · rintro ⟨-, rfl⟩
      rfl
  next hg =>
    constructor
    · intro h
      cases h
    · rintro ⟨hg2, -⟩
      exact absurd hg2 hg

theorem mem_stop_ids_in_db (stops : List Stop) (trip_id : Int) (s : Stop)
    (hs : s ∈ stops) (ht : s.trip_id = trip_id) :
    s.id ∈ stop_ids_in_db stops trip_id := by
  unfold stop_ids_in_db
  exact List.mem_map.mpr ⟨s, List.mem_filter.mpr ⟨hs, by simp [ht]⟩, rfl⟩

/-- **C3.** For a trip whose stop-id set equals the (duplicate-free) id
list `stop_ids`, `reorder_stops` succeeds; after phase 1 every stop listed
at position `k` carries the temporary index `-(k+1)` — all negative, hence
disjoint from every non-negative index, and pairwise distinct across the
trip's stops — and in the final state every stop listed at position `k`
carries `order_index = k`, the trip's stops' ids all being listed, so the
ids are mapped bijectively onto `0..n-1` in the order of `stop_ids`. -/
theorem reorder_two_phase_plan (stops : List Stop) (trip_id : Int)
    (stop_ids : List Int) (hN : stop_ids.Nodup)
    (hsub1 : ∀ x ∈ stop_ids, x ∈ stop_ids_in_db stops trip_id)
    (hsub2 : ∀ x ∈ stop_ids_in_db stops trip_id, x ∈ stop_ids) :
    ∃ res, reorder_stops stops trip_id stop_ids = Except.ok res ∧
      (∀ s ∈ bulk_update_order_indices stops (temp_mapping stop_ids),
        ∀ k : Nat, ∀ hk : k < stop_ids.length,
          s.id = stop_ids.get ⟨k, hk⟩ → s.order_index = -((k : Int) + 1)) ∧
      (∀ s ∈ bulk_update_order_indices stops (temp_mapping stop_ids),
        s.trip_id = trip_id → s.order_index < 0) ∧
      (∀ s1 ∈ bulk_update_order_indices stops (temp_mapping stop_ids),
        ∀ s2 ∈ bulk_update_order_indices stops (temp_mapping stop_ids),
        s1.trip_id = trip_id → s2.trip_id = trip_id → s1.id ≠ s2.id →
          s1.order_index ≠ s2.order_index) ∧
      res.map (·.id) = stops.map (·.id) ∧
      res.map (·.trip_id) = stops.map (·.trip_id) ∧
      (∀ s ∈ res, ∀ k : Nat, ∀ hk : k < stop_ids.length,
        s.id = stop_ids.get ⟨k, hk⟩ → s.order_index = (k : Int)) ∧
      (∀ s ∈ res, s.trip_id = trip_id → s.id ∈ stop_ids) := by
  have hphase1 : ∀ s ∈ bulk_update_order_indices stops (temp_mapping stop_ids),
      ∀ k : Nat, ∀ hk : k < stop_ids.length,
        s.id = stop_ids.get ⟨k, hk⟩ → s.order_index = -((k : Int) + 1) := by
    rw [bulk_update_eq_map]
    rintro s hs k hk hid
    rcases List.mem_map.mp hs with ⟨s0, hs0, rfl⟩
    show lookupLastD (temp_mapping stop_ids) s0.id s0.order_index = _
    have hid0 : s0.id = stop_ids.get ⟨k, hk⟩ := hid
    rw [hid0, temp_mapping, enumMapping_lookup _ _ hN k hk 0 _]
    simp
  have hmem_ids : ∀ s ∈ stops, s.trip_id = trip_id → s.id ∈ stop_ids :=
    fun s hs ht => hsub2 s.id (mem_stop_ids_in_db stops trip_id s hs ht)
  have hget_of_mem : ∀ x : Int, x ∈ stop_ids →
      ∃ k : Nat, ∃ hk : k < stop_ids.length, stop_ids.get ⟨k, hk⟩ = x := by
    intro x hx
    rcases List.mem_iff_get.mp hx with ⟨⟨k, hk⟩, hget⟩
    exact ⟨k, hk, hget⟩
  refine ⟨stops.map (reorderAssign stop_ids), ?_, hphase1, ?_, ?_, ?_, ?_, ?_, ?_⟩
  · exact (reorder_stops_ok_iff stops trip_id stop_ids _).mpr
      ⟨(reorder_guard_iff stops trip_id stop_ids).mpr ⟨hsub1, hsub2⟩, rfl⟩
  · intro s hs ht
    have hs' := hs
    rw [bulk_update_eq_map] at hs'
    rcases List.mem_map.mp hs' with ⟨s0, hs0, rfl⟩
    have ht0 : s0.trip_id = trip_id := ht
    rcases hget_of_mem s0.id (hmem_ids s0 hs0 ht0) with ⟨k, hk, hget⟩
    have := hphase1 _ hs k hk hget.symm
    rw [this]
    omega
  · intro s1 hs1 s2 hs2 ht1 ht2 hne
    have hm1 := hs1
    have hm2 := hs2
    rw [bulk_update_eq_map] at hm1 hm2
    rcases List.mem_map.mp hm1 with ⟨t1, ht1m, rfl⟩
    rcases List.mem_map.mp hm2 with ⟨t2, ht2m, rfl⟩
    rcases hget_of_mem t1.id (hmem_ids t1 ht1m ht1) with ⟨k1, hk1, hg1⟩
    rcases hget_of_mem t2.id (hmem_ids t2 ht2m ht2) with ⟨k2, hk2, hg2⟩
    rw [hphase1 _ hs1 k1 hk1 hg1.symm, hphase1 _ hs2 k2 hk2 hg2.symm]
    intro heq
    have hkk : k1 = k2 := by omega
    subst hkk
    exact hne (hg1.symm.trans hg2)
  · rw [List.map_map]
    exact List.map_congr_left fun s _ => rfl
  · rw [List.map_map]
    exact List.map_congr_left fun s _ => rfl
  · rintro s hs k hk hid
    rcases List.mem_map.mp hs with ⟨s0, hs0, rfl⟩
    exact reorderAssign_get stop_ids hN k hk s0 hid
  · rintro s hs ht
    rcases List.mem_map.mp hs with ⟨s0, hs0, rfl⟩
    exact hmem_ids s0 hs0 ht

/-- Witness for C3: reordering the demo trip with `[3, 1, 2]` succeeds
and gives each listed id the order index of its position. -/
theorem reorder_two_phase_plan_witness :
    ∃ res, reorder_stops demoStops 1 [3, 1, 2] = Except.ok res ∧
      (∀ s ∈ res, ∀ k : Nat, ∀ hk : k < ([3, 1, 2] : List Int).length,
        s.id = ([3, 1, 2] : List Int).get ⟨k, hk⟩ → s.order_index = (k : Int)) ∧
      (∀ s ∈ res, s.trip_id = 1 → s.id ∈ ([3, 1, 2] : List Int)) := by
  obtain ⟨res, h1, -, -, -, -, -, h7, h8⟩ :=
    reorder_two_phase_plan demoStops 1 [3, 1, 2] (by decide) (by decide)
      (by decide)
  exact ⟨res, h1, h7, h8⟩

theorem set_diff_sorted_mem (a b : List Int) (x : Int) :
    x ∈ set_diff_sorted a b ↔ x ∈ a ∧ x ∉ b := by
  unfold set_diff_sorted
  rw [(List.perm_insertionSort _ _).mem_iff, List.mem_dedup, List.mem_filter]
  simp

/-- **C4.** A reorder whose id set differs from the trip's stop-id set is
rejected with no write: the message is built from the sorted missing-id
and unexpected-id lists, both reported together when both are non-empty
(and at least one is non-empty); each of the two lists is ascending,
duplicate-free, and holds exactly the respective set difference.  When the
sets agree the reorder proceeds. -/
theorem reorder_rejects_id_set_mismatch (stops : List Stop) (trip_id : Int)
    (stop_ids : List Int) :
    ((¬ ((∀ x ∈ stop_ids, x ∈ stop_ids_in_db stops trip_id) ∧
        (∀ x ∈ stop_ids_in_db stops trip_id, x ∈ stop_ids))) →
      reorder_stops stops trip_id stop_ids =
        Except.error
          (reorderErrorMessage
            (set_diff_sorted (stop_ids_in_db stops trip_id) stop_ids)
            (set_diff_sorted stop_ids (stop_ids_in_db stops trip_id))) ∧
      (set_diff_sorted (stop_ids_in_db stops trip_id) stop_ids ≠ [] ∨
        set_diff_sorted stop_ids (stop_ids_in_db stops trip_id) ≠ [])) ∧
    (∀ a b : List Int,
      (set_diff_sorted a b).Sorted (· ≤ ·) ∧ (set_diff_sorted a b).Nodup ∧
        (∀ x, x ∈ set_diff_sorted a b ↔ x ∈ a ∧ x ∉ b)) ∧
    (∀ m e : List Int, m ≠ [] → e ≠ [] →
      reorderErrorMessage m e =
        "Missing stop IDs: " ++ renderIntList m ++ "; " ++
          ("Invalid stop IDs (not in this trip): " ++ renderIntList e)) ∧
    (((∀ x ∈ stop_ids, x ∈ stop_ids_in_db stops trip_id) ∧
        (∀ x ∈ stop_ids_in_db stops trip_id, x ∈ stop_ids)) →
      ∃ res, reorder_stops stops trip_id stop_ids = Except.ok res) := by
  refine ⟨?_, ?_, ?_, ?_⟩
  · intro hne
    constructor
    · unfold reorder_stops
      dsimp only
      rw [if_neg fun hg =>
        hne ((reorder_guard_iff stops trip_id stop_ids).mp hg)]
    · by_cases hA : ∀ x ∈ stop_ids, x ∈ stop_ids_in_db stops trip_id
      · have hB : ¬ ∀ x ∈ stop_ids_in_db stops trip_id, x ∈ stop_ids :=
          fun hB => hne ⟨hA, hB⟩
        push_neg at hB
        rcases hB with ⟨x, hx1, hx2⟩
        exact Or.inl (List.ne_nil_of_mem
          ((set_diff_sorted_mem _ _ x).mpr ⟨hx1, hx2⟩))
      · push_neg at hA
        rcases hA with ⟨x, hx1, hx2⟩
        exact Or.inr (List.ne_nil_of_mem
          ((set_diff_sorted_mem _ _ x).mpr ⟨hx1, hx2⟩))
  · intro a b
    refine ⟨List.sorted_insertionSort _ _,
      (List.perm_insertionSort _ _).nodup_iff.mpr (List.nodup_dedup _),
      set_diff_sorted_mem a b⟩
  · intro m e hm he
    unfold reorderErrorMessage
    rw [if_pos hm, if_pos he]
    rfl
  · intro heq
    exact ⟨stops.map (reorderAssign stop_ids),
      (reorder_stops_ok_iff stops trip_id stop_ids _).mpr
        ⟨(reorder_guard_iff stops trip_id stop_ids).mpr heq, rfl⟩⟩

/-- Witness for C4: reordering the demo trip with `[1, 2, 999]` (id 3
missing, id 999 foreign) is rejected, and the message enumerates both
sorted lists. -/
theorem reorder_rejects_id_set_mismatch_witness :
    reorder_stops demoStops 1 [1, 2, 999] =
      Except.error
        "Missing stop IDs: [3]; Invalid stop IDs (not in this trip): [999]" := by
  have h := (reorder_rejects_id_set_mismatch demoStops 1 [1, 2, 999]).1
    (by decide)
  rw [h.1]
  rfl

theorem nodup_iff_dedup_length (l : List Int) :
    l.Nodup ↔ l.dedup.length = l.length := by
  constructor
  · intro h
    rw [List.dedup_eq_self.mpr h]
  · intro h
    have hd : l.dedup = l := (List.dedup_sublist l).eq_of_length h
    rw [← hd]
    exact l.nodup_dedup

/-- **C5.** A reorder request whose id list repeats an id is rejected by
the schema-stage validator `validate_unique_ids` with the dedicated
duplicate-id message, before the service's set-equality comparison runs;
a duplicate-free request is passed through to `reorder_stops` unchanged,
so duplicates are never folded into the set check. -/
theorem reorder_duplicates_rejected_first (stops : List Stop)
    (trip_id : Int) (stop_ids : List Int) :
    (¬ stop_ids.Nodup →
      reorder_request stops trip_id stop_ids =
        Except.error "stop_ids must not contain duplicates") ∧
    (stop_ids.Nodup →
      reorder_request stops trip_id stop_ids =
        reorder_stops stops trip_id stop_ids) := by
  constructor
  · intro hdup
    unfold reorder_request validate_unique_ids
    rw [if_pos fun hlen =>
      hdup ((nodup_iff_dedup_length stop_ids).mpr hlen.symm)]
  · intro hnodup
    unfold reorder_request validate_unique_ids
    rw [if_neg fun hlen =>
      hlen ((nodup_iff_dedup_length stop_ids).mp hnodup).symm]

/-- Witness for C5: `[1, 1, 2]` against the demo trip (stop ids 1, 2, 3)
draws the duplicate-id rejection, not the missing-id rejection that the
bare set comparison would give. -/
theorem reorder_duplicates_rejected_first_witness :
    reorder_request demoStops 1 [1, 1, 2] =
      Except.error "stop_ids must not contain duplicates" ∧
    reorder_stops demoStops 1 [1, 1, 2] =
      Except.error "Missing stop IDs: [3]" := by
  constructor
  · exact (reorder_duplicates_rejected_first demoStops 1 [1, 1, 2]).1
      (by decide)
  · rfl

theorem filter_map_pred_comm (f : Stop → Stop) (p : Stop → Bool)
    (hp : ∀ s, p (f s) = p s) (l : List Stop) :
    (l.map f).filter p = (l.filter p).map f := by
  induction l with
  | nil => rfl
  | cons a t ih =>
    simp only [List.map_cons, List.filter_cons, hp a]
    by_cases h : p a = true
    · simp only [if_pos h, List.map_cons, ih]
    · simp only [if_neg h, ih]

theorem stop_ids_in_db_map_reorderAssign (stops : List Stop) (trip_id : Int)
    (stop_ids : List Int) :
    stop_ids_in_db (stops.map (reorderAssign stop_ids)) trip_id =
      stop_ids_in_db stops trip_id := by
  unfold stop_ids_in_db
  rw [filter_map_pred_comm (reorderAssign stop_ids)
    (fun s => decide (s.trip_id = trip_id)) (fun s => rfl) stops,
    List.map_map]
  rfl

/-- **C9.** Reorder is idempotent under re-application: if
`reorder_stops` with `stop_ids` succeeds and produces the state `stops2`,
running it again with the same `stop_ids` on `stops2` succeeds and
returns `stops2` itself — the same final assignment, with no drift. -/
theorem reorder_stops_idempotent (stops : List Stop) (trip_id : Int)
    (stop_ids : List Int) (stops2 : List Stop)
    (h : reorder_stops stops trip_id stop_ids = Except.ok stops2) :
    reorder_stops stops2 trip_id stop_ids = Except.ok stops2 := by
  rcases (reorder_stops_ok_iff stops trip_id stop_ids stops2).mp h with ⟨hg, rfl⟩
  apply (reorder_stops_ok_iff _ trip_id stop_ids _).mpr
  constructor
  · rwa [stop_ids_in_db_map_reorderAssign]
  · rw [List.map_map]
    apply List.map_congr_left
    intro s _
    exact (reorderAssign_idem stop_ids s).symm

/-- Witness for C9: re-applying `[3, 1, 2]` to the reordered demo trip
reproduces exactly the same state. -/
theorem reorder_stops_idempotent_witness :
    reorder_stops demoStops 1 [3, 1, 2] = Except.ok demoStopsReordered ∧
    reorder_stops demoStopsReordered 1 [3, 1, 2] =
      Except.ok demoStopsReordered := by
  have h : reorder_stops demoStops 1 [3, 1, 2] =
      Except.ok demoStopsReordered := by rfl
  exact ⟨h, reorder_stops_idempotent demoStops 1 [3, 1, 2] demoStopsReordered h⟩

/-- **C10.** The repository exclusion guards test Python truthiness, not
`is None`: excluding stop id `0` behaves exactly like excluding nothing in
both `get_stops_with_date_overlap` and `order_index_exists` (so a stop
with id 0 would be compared against itself during its own update), while
for every non-zero id the queries coincide with the same queries over the
table with that row removed. -/
theorem exclude_stop_id_truthiness (stops : List Stop)
    (trip_id a b oi : Int) :
    (get_stops_with_date_overlap stops trip_id a b (some 0) =
        get_stops_with_date_overlap stops trip_id a b none ∧
      order_index_exists stops trip_id oi (some 0) =
        order_index_exists stops trip_id oi none) ∧
    (∀ v : Int, v ≠ 0 →
      get_stops_with_date_overlap stops trip_id a b (some v) =
        get_stops_with_date_overlap
          (stops.filter fun s => decide (s.id ≠ v)) trip_id a b none ∧
      order_index_exists stops trip_id oi (some v) =
        order_index_exists
          (stops.filter fun s => decide (s.id ≠ v)) trip_id oi none) := by
  constructor
  · constructor
    · simp [get_stops_with_date_overlap, pyTruthy]
    · simp [order_index_exists, pyTruthy]
  · intro v hv
    have htru : pyTruthy (some v) = true := by
      simp [pyTruthy, hv]
    have hnone : ¬ pyTruthy (none : Option Int) = true := by decide
    constructor
    · unfold get_stops_with_date_overlap
      dsimp only
      rw [if_pos htru, if_neg hnone]
      simp only [Option.getD_some]
      rw [List.filter_comm (fun s : Stop => decide (s.id ≠ v))
          (fun s : Stop => decide (s.trip_id = trip_id))]
    · unfold order_index_exists
      rw [List.any_filter]
      congr 1
      funext s
      simp only [Option.getD_some]
      rw [if_pos htru, if_neg hnone]
      cases decide (s.trip_id = trip_id) <;>
        cases decide (s.order_index = oi) <;>
          cases decide (s.id ≠ v) <;> rfl

/-- Witness for C10: on the demo trip, excluding id `0` leaves all three
stops visible to the overlap query, and excluding id `3` hides Osaka. -/
theorem exclude_stop_id_truthiness_witness :
    get_stops_with_date_overlap demoStops 1 1 12 (some 0) =
      get_stops_with_date_overlap demoStops 1 1 12 none ∧
    get_stops_with_date_overlap demoStops 1 1 12 (some 3) =
      get_stops_with_date_overlap
        (demoStops.filter fun s => decide (s.id ≠ 3)) 1 1 12 none ∧
    order_index_exists demoStops 1 2 (some 3) = false := by
  refine ⟨(exclude_stop_id_truthiness demoStops 1 1 12 2).1.1,
    ((exclude_stop_id_truthiness demoStops 1 1 12 2).2 3 (by decide)).1, ?_⟩
  decide

theorem update_stop_ok_elim (trip : Trip) (stops : List Stop)
    (stop_id : Int) (u : StopUpdate) (stops2 : List Stop)
    (h : update_stop trip stops stop_id u = Except.ok stops2) :
    ∃ stop, stops.find? (fun s =>
        decide (s.id = stop_id) && decide (s.trip_id = trip.id)) = some stop ∧
      stop ∈ stops ∧ stop.id = stop_id ∧ stop.trip_id = trip.id ∧
      stops2 = stops.map (fun s =>
        if s.id = stop_id then applyStopUpdate u s else s) ∧
      validate_dates_within_range (u.start_date.getD stop.start_date)
        (u.end_date.getD stop.end_date) trip.start_date trip.end_date
        "trip" = Except.ok () ∧
      ((u.start_date.isSome || u.end_date.isSome) = true →
        validate_date_overlap (u.start_date.getD stop.start_date)
          (u.end_date.getD stop.end_date)
          (get_stops_with_date_overlap stops trip.id
            (u.start_date.getD stop.start_date)
            (u.end_date.getD stop.end_date) (some stop_id)) 1 =
          Except.ok ()) ∧
      (∀ oi, u.order_index = some oi →
        order_index_exists stops trip.id oi (some stop_id) = false) := by
  unfold update_stop at h
  split at h
  next hfind => cases h
  next stop hfind =>
    dsimp only at h
    refine ⟨stop, hfind, List.mem_of_find?_eq_some hfind, ?_, ?_, ?_⟩
    · have hp := List.find?_some hfind
      simp only [Bool.and_eq_true, decide_eq_true_eq] at hp
      exact hp.1
    · have hp := List.find?_some hfind
      simp only [Bool.and_eq_true, decide_eq_true_eq] at hp
      exact hp.2
    split at h
    next => cases h
    next uval hdates =>
      split at h
      next => cases h
      next uval2 hover =>
        split at h
        next => cases h
        next uval3 hidx =>
          split at h
          next => cases h
          next uval4 hcoord =>
            injection h with h
            refine ⟨h.symm, ?_, ?_, ?_⟩
            · cases uval
              exact hdates
            · intro hcond
              rw [if_pos hcond] at hover
              cases uval2
              exact hover
            · intro oi hoi
              rw [hoi] at hidx
              dsimp only at hidx
              by_cases hex :
                  order_index_exists stops trip.id oi (some stop_id) = true
              · rw [if_pos hex] at hidx
                cases hidx
              · exact Bool.not_eq_true _ ▸ hex

/-- **C6.** On every successful update, the stored table changes only at
the updated stop, which takes exactly the patched fields and keeps every
unpatched field (each final field is `patch.getD current`, and the
untouched rows survive unchanged); the validations were performed against
the merged candidate — patch values where supplied, current values
otherwise. -/
theorem update_stop_patch_frame (trip : Trip) (stops : List Stop)
    (stop_id : Int) (u : StopUpdate) (stops2 : List Stop)
    (h : update_stop trip stops stop_id u = Except.ok stops2) :
    ∃ stop, stops.find? (fun s =>
        decide (s.id = stop_id) && decide (s.trip_id = trip.id)) = some stop ∧
      stops2 = stops.map (fun s =>
        if s.id = stop_id then applyStopUpdate u s else s) ∧
      (∀ s ∈ stops, s.id ≠ stop_id → s ∈ stops2) ∧
      (applyStopUpdate u stop).id = stop.id ∧
      (applyStopUpdate u stop).trip_id = stop.trip_id ∧
      (applyStopUpdate u stop).name = u.name.getD stop.name ∧
      (applyStopUpdate u stop).country = u.country.getD stop.country ∧
      (applyStopUpdate u stop).start_date = u.start_date.getD stop.start_date ∧
      (applyStopUpdate u stop).end_date = u.end_date.getD stop.end_date ∧
      (applyStopUpdate u stop).order_index =
        u.order_index.getD stop.order_index ∧
      (applyStopUpdate u stop).latitude = u.latitude.getD stop.latitude ∧
      (applyStopUpdate u stop).longitude = u.longitude.getD stop.longitude ∧
      (applyStopUpdate u stop).notes = u.notes.getD stop.notes ∧
      validate_dates_within_range (u.start_date.getD stop.start_date)
        (u.end_date.getD stop.end_date) trip.start_date trip.end_date
        "trip" = Except.ok () ∧
      ((u.start_date.isSome || u.end_date.isSome) = true →
        validate_date_overlap (u.start_date.getD stop.start_date)
          (u.end_date.getD stop.end_date)
          (get_stops_with_date_overlap stops trip.id
            (u.start_date.getD stop.start_date)
            (u.end_date.getD stop.end_date) (some stop_id)) 1 =
          Except.ok ()) ∧
      (∀ oi, u.order_index = some oi →
        order_index_exists stops trip.id oi (some stop_id) = false) := by
  obtain ⟨stop, hfind, hmem, hsid, htrip, hmap, hdates, hover, hidx⟩ :=
    update_stop_ok_elim trip stops stop_id u stops2 h
  refine ⟨stop, hfind, hmap, ?_, rfl, rfl, rfl, rfl, rfl, rfl, rfl, rfl,
    rfl, rfl, hdates, hover, hidx⟩
  intro s hs hne
  rw [hmap]
  exact List.mem_map.mpr ⟨s, hs, by rw [if_neg hne]⟩

/-- Witness for C6: patching stop 2 of the demo trip with only `end_date`
and `notes` succeeds, rewrites only those two fields of stop 2, and keeps
stops 1 and 3 in the table unchanged. -/
theorem update_stop_patch_frame_witness :
    update_stop demoTrip demoStops 2 demoPatch =
      Except.ok demoStopsPatched ∧
    (∀ s ∈ demoStops, s.id ≠ 2 → s ∈ demoStopsPatched) := by
  have h : update_stop demoTrip demoStops 2 demoPatch =
      Except.ok demoStopsPatched := by rfl
  obtain ⟨stop, -, hmap, hkeep, -⟩ :=
    update_stop_patch_frame demoTrip demoStops 2 demoPatch demoStopsPatched h
  exact ⟨h, hkeep⟩

theorem create_stop_ok_elim (trip : Trip) (stops : List Stop)
    (d : StopCreate) (new_id : Int) (stops2 : List Stop)
    (h : create_stop trip stops d new_id = Except.ok stops2) :
    stops2 = stops ++
      [{ id := new_id, trip_id := trip.id, name := d.name,
         country := d.country, start_date := d.start_date,
         end_date := d.end_date, order_index := d.order_index,
         latitude := d.latitude, longitude := d.longitude,
         notes := d.notes }] ∧
    order_index_exists stops trip.id d.order_index none = false := by
  unfold create_stop at h
  split at h
  next => cases h
  next hdates =>
    split at h
    next => cases h
    next hover =>
      by_cases hex :
          order_index_exists stops trip.id d.order_index none = true
      · rw [if_pos hex] at h
        cases h
      · rw [if_neg hex] at h
        injection h with h
        exact ⟨h.symm, Bool.not_eq_true _ ▸ hex⟩

theorem order_index_exists_false_none (stops : List Stop) (t v : Int)
    (h : order_index_exists stops t v none = false) :
    ∀ s ∈ stops, s.trip_id = t → s.order_index ≠ v := by
  intro s hs ht hv
  exact List.any_eq_false.mp h s hs (by simp [ht, hv, pyTruthy])

theorem order_index_exists_false_some (stops : List Stop) (t v sid : Int)
    (h : order_index_exists stops t v (some sid) = false) :
    ∀ s ∈ stops, s.trip_id = t → s.id ≠ sid → s.order_index ≠ v := by
  intro s hs ht hid hv
  apply List.any_eq_false.mp h s hs
  by_cases hz : sid = 0
  · subst hz
    simp [ht, hv, pyTruthy]
  · simp [ht, hv, pyTruthy, hz, hid]

theorem validate_unique_ids_ok_elim (stop_ids ids : List Int)
    (h : validate_unique_ids stop_ids = Except.ok ids) :
    ids = stop_ids ∧ stop_ids.Nodup := by
  unfold validate_unique_ids at h
  split at h
  next => cases h
  next hlen =>
    injection h with h
    refine ⟨h.symm, (nodup_iff_dedup_length stop_ids).mpr ?_⟩
    by_contra hne
    exact hlen (Ne.symm hne)

/-- **C7.** If a trip's stops satisfy the uniqueness invariant (and ids
are the distinct primary keys), then any successful `create_stop`,
`update_stop`, or reorder request leaves the trip's stops satisfying it:
create and update refuse an `order_index` held by another stop of the
trip, and a reorder ends with the distinct indices `0..n-1`. -/
theorem order_index_uniqueness_preserved (trip : Trip) (stops : List Stop)
    (hids : (stops.map (fun s => s.id)).Nodup)
    (huniq : OrderUnique stops trip.id) :
    (∀ (d : StopCreate) (new_id : Int) (stops2 : List Stop),
      create_stop trip stops d new_id = Except.ok stops2 →
        OrderUnique stops2 trip.id) ∧
    (∀ (stop_id : Int) (u : StopUpdate) (stops2 : List Stop),
      update_stop trip stops stop_id u = Except.ok stops2 →
        OrderUnique stops2 trip.id) ∧
    (∀ (stop_ids : List Int) (stops2 : List Stop),
      reorder_request stops trip.id stop_ids = Except.ok stops2 →
        OrderUnique stops2 trip.id) := by
  have hpid : stops.Pairwise fun a b => ¬ a.id = b.id :=
    List.pairwise_map.mp hids
  refine ⟨?_, ?_, ?_⟩
  · intro d new_id stops2 h
    obtain ⟨rfl, hex⟩ := create_stop_ok_elim trip stops d new_id stops2 h
    unfold OrderUnique
    rw [List.pairwise_append]
    refine ⟨huniq, List.pairwise_singleton _ _, ?_⟩
    intro a ha b hb
    rw [List.mem_singleton] at hb
    subst hb
    intro hta _
    exact order_index_exists_false_none stops trip.id d.order_index hex
      a ha hta
  · intro stop_id u stops2 h
    obtain ⟨stop, hfind, hmem, hsid, htrip, rfl, -, -, hidx⟩ :=
      update_stop_ok_elim trip stops stop_id u stops2 h
    unfold OrderUnique
    rw [List.pairwise_map]
    refine (hpid.and huniq).imp_of_mem ?_
    intro a b ha hb hab
    obtain ⟨hne, hR⟩ := hab
    by_cases hA : a.id = stop_id <;> by_cases hB : b.id = stop_id
    · exact absurd (hA.trans hB.symm) hne
    · simp only [if_pos hA, if_neg hB]
      intro hta htb
      have hta' : a.trip_id = trip.id := hta
      cases hu : u.order_index with
      | none =>
        have : (applyStopUpdate u a).order_index = a.order_index := by
          simp [applyStopUpdate, hu]
        rw [this]
        exact hR hta' htb
      | some v =>
        have : (applyStopUpdate u a).order_index = v := by
          simp [applyStopUpdate, hu]
        rw [this]
        exact Ne.symm (order_index_exists_false_some stops trip.id v stop_id
          (hidx v hu) b hb htb hB)
    · simp only [if_neg hA, if_pos hB]
      intro hta htb
      have htb' : b.trip_id = trip.id := htb
      cases hu : u.order_index with
      | none =>
        have : (applyStopUpdate u b).order_index = b.order_index := by
          simp [applyStopUpdate, hu]
        rw [this]
        exact hR hta htb'
      | some v =>
        have : (applyStopUpdate u b).order_index = v := by
          simp [applyStopUpdate, hu]
        rw [this]
        exact order_index_exists_false_some stops trip.id v stop_id
          (hidx v hu) a ha hta hA
    · simp only [if_neg hA, if_neg hB]
      exact hR
  · intro stop_ids stops2 h
    unfold reorder_request at h
    cases hval : validate_unique_ids stop_ids with
    | error e =>
      rw [hval] at h
      cases h
    | ok ids =>
      rw [hval] at h
      dsimp only at h
      obtain ⟨hk, hN⟩ := validate_unique_ids_ok_elim stop_ids ids hval
      subst hk
      obtain ⟨hg, rfl⟩ :=
        (reorder_stops_ok_iff stops trip.id ids _).mp h
      obtain ⟨-, hsub2⟩ := (reorder_guard_iff stops trip.id ids).mp hg
      unfold OrderUnique
      rw [List.pairwise_map]
      refine hpid.imp_of_mem ?_
      intro a b ha hb hne hta htb
      have hMa : a.id ∈ ids :=
        hsub2 a.id (mem_stop_ids_in_db stops trip.id a ha hta)
      have hMb : b.id ∈ ids :=
        hsub2 b.id (mem_stop_ids_in_db stops trip.id b hb htb)
      rcases List.mem_iff_get.mp hMa with ⟨⟨k1, hk1⟩, hg1⟩
      rcases List.mem_iff_get.mp hMb with ⟨⟨k2, hk2⟩, hg2⟩
      rw [reorderAssign_get ids hN k1 hk1 a hg1.symm,
        reorderAssign_get ids hN k2 hk2 b hg2.symm]
      intro hkk
      have : k1 = k2 := by omega
      subst this
      exact hne (hg1.symm.trans hg2)

/-- Witness for C7: creating a fourth stop on the demo trip succeeds and
the resulting table still has pairwise-distinct order indices. -/
theorem order_index_uniqueness_preserved_witness :
    ∃ stops2,
      create_stop demoTrip demoStops
        { name := "Nara", country := none, start_date := 13, end_date := 14,
          order_index := 3, latitude := none, longitude := none,
          notes := none } 4 = Except.ok stops2 ∧
      OrderUnique stops2 demoTrip.id := by
  have h : create_stop demoTrip demoStops
      { name := "Nara", country := none, start_date := 13, end_date := 14,
        order_index := 3, latitude := none, longitude := none,
        notes := none } 4 =
      Except.ok (demoStops ++
        [{ id := 4, trip_id := 1, name := "Nara", country := none,
           start_date := 13, end_date := 14, order_index := 3,
           latitude := none, longitude := none, notes := none }]) := by rfl
  exact ⟨_, h,
    (order_index_uniqueness_preserved demoTrip demoStops (by decide)
      (by simp [OrderUnique, demoStops, List.pairwise_cons])).1 _ 4 _ h⟩

/-- **C8.** `update_trip` never reads or re-validates the trip's stops: a
date-range change (in particular a shrink) succeeds exactly when the
merged `end_date >= start_date`, regardless of the stops; on success every
stop record is left unchanged while the trip takes the merged dates — so
the containment invariant is not re-established and stops may lie outside
the new bounds. -/
theorem update_trip_no_stop_revalidation (trip : Trip) (stops : List Stop)
    (u : TripUpdate) :
    ((∃ r, update_trip trip stops u = Except.ok r) ↔
      u.start_date.getD trip.start_date ≤ u.end_date.getD trip.end_date) ∧
    (∀ trip2 stops2,
      update_trip trip stops u = Except.ok (trip2, stops2) →
        stops2 = stops ∧ trip2.id = trip.id ∧
        trip2.start_date = u.start_date.getD trip.start_date ∧
        trip2.end_date = u.end_date.getD trip.end_date) := by
  unfold update_trip validate_trip_date_range
  dsimp only
  by_cases hlt :
      u.end_date.getD trip.end_date < u.start_date.getD trip.start_date
  · rw [if_pos hlt]
    constructor
    · constructor
      · rintro ⟨r, hr⟩
        cases hr
      · intro hle
        omega
    · intro trip2 stops2 h2
      cases h2
  · rw [if_neg hlt]
    constructor
    · constructor
      · intro _
        omega
      · intro _
        exact ⟨_, rfl⟩
    · intro trip2 stops2 h2
      injection h2 with h2
      injection h2 with ht hs
      exact ⟨hs.symm, by rw [← ht], by rw [← ht], by rw [← ht]⟩

/-- Witness for C8: shrinking the demo trip's end date from 30 to 6
succeeds, leaves all three stops untouched, and leaves Osaka (days 9-12)
outside the new bounds, as the containment validator would now reject it. -/
theorem update_trip_no_stop_revalidation_witness :
    (∃ t1, update_trip demoTrip demoStops
        { title := none, start_date := none, end_date := some 6 } =
          Except.ok (t1, demoStops) ∧ t1.end_date = 6) ∧
    validate_dates_within_range 9 12 0 6 "trip" ≠ Except.ok () := by
  have h0 : update_trip demoTrip demoStops
      { title := none, start_date := none, end_date := some 6 } =
      Except.ok
        ({ id := 1, title := "Japan", start_date := 0, end_date := 6,
           user_id := 7 }, demoStops) := by rfl
  obtain ⟨hstops, hid, hst, hend⟩ :=
    (update_trip_no_stop_revalidation demoTrip demoStops
      { title := none, start_date := none, end_date := some 6 }).2 _ _ h0
  refine ⟨⟨_, h0, hend⟩, ?_⟩
  intro hc
  rw [show validate_dates_within_range 9 12 0 6 "trip" =
      Except.error (withinRangeMessage "trip" 0 6) from rfl] at hc
  cases hc

/-- **C1.** For every candidate range and list of existing stops,
`validate_date_overlap` errs iff some listed stop has non-negative
intersection length `min(end_date, e) - max(start_date, s) + 1` exceeding
`max_overlap_days` (so with the default 1, one shared day is allowed and
two or more are rejected); the violation reported is for the first such
stop in list order and carries that stop's name, the overlap day count and
the overlap window. -/
theorem validate_date_overlap_first_violation
    (start_date end_date max_overlap_days : Int)
    (existing : List (Int × Int × String))
    (hm : 0 ≤ max_overlap_days) :
    (validate_date_overlap start_date end_date existing max_overlap_days =
      match existing.find? (overlapTooLarge start_date end_date max_overlap_days) with
      | none => Except.ok ()
      | some t =>
          Except.error (overlapMessage t.2.2
            (min end_date t.2.1 - max start_date t.1 + 1)
            (max start_date t.1) (min end_date t.2.1) max_overlap_days)) ∧
    (validate_date_overlap start_date end_date existing max_overlap_days = Except.ok () ↔
      ∀ t ∈ existing,
        ¬ (0 ≤ min end_date t.2.1 - max start_date t.1 + 1 ∧
           min end_date t.2.1 - max start_date t.1 + 1 > max_overlap_days)) := by
  have key : validate_date_overlap start_date end_date existing max_overlap_days =
      match existing.find? (overlapTooLarge start_date end_date max_overlap_days) with
      | none => Except.ok ()
      | some t =>
          Except.error (overlapMessage t.2.2
            (min end_date t.2.1 - max start_date t.1 + 1)
            (max start_date t.1) (min end_date t.2.1) max_overlap_days) := by
    induction existing with
    | nil => rfl
    | cons hd rest ih =>
      obtain ⟨es, ee, nm⟩ := hd
      by_cases hviol :
          overlapTooLarge start_date end_date max_overlap_days (es, ee, nm) = true
      · rw [List.find?_cons_of_pos _ hviol]
        have h1 : 0 ≤ min end_date ee - max start_date es + 1 ∧
            min end_date ee - max start_date es + 1 > max_overlap_days := by
          simpa [overlapTooLarge] using hviol
        have hle : max start_date es ≤ min end_date ee := by omega
        simp only [validate_date_overlap, if_pos hle, if_pos h1.2]
      · rw [List.find?_cons_of_neg _ hviol]
        have h1 : ¬ (0 ≤ min end_date ee - max start_date es + 1 ∧
            min end_date ee - max start_date es + 1 > max_overlap_days) := by
          simpa [overlapTooLarge] using hviol
        by_cases hle : max start_date es ≤ min end_date ee
        · have hsmall : ¬ (min end_date ee - max start_date es + 1 > max_overlap_days) := by
            omega
          simp only [validate_date_overlap, if_pos hle, if_neg hsmall]
          exact ih
        · simp only [validate_date_overlap, if_neg hle]
          exact ih
  refine ⟨key, ?_⟩
  rw [key]
  constructor
  · intro hok t ht hbad
    have hfind : ∃ u, existing.find?
        (overlapTooLarge start_date end_date max_overlap_days) = some u := by
      have : overlapTooLarge start_date end_date max_overlap_days t = true := by
        simp [overlapTooLarge, hbad.1, hbad.2]
      rcases List.find?_isSome.mpr ⟨t, ht, this⟩ with h
      exact Option.isSome_iff_exists.mp (by simpa using h)
    rcases hfind with ⟨u, hu⟩
    rw [hu] at hok
    exact absurd hok (by simp)
  · intro hall
    have : existing.find? (overlapTooLarge start_date end_date max_overlap_days) = none := by
      rw [List.find?_eq_none]
      intro t ht
      have := hall t ht
      simp [overlapTooLarge]
      omega
    rw [this]

/-- Witness for C1 at a concrete input: with the default allowance of 1
day, a candidate 14-20 against existing stops A = 11-15 and B = 15-20
is rejected on the first offender A, with a 2-day overlap on 14-15. -/
theorem validate_date_overlap_first_violation_witness :
    validate_date_overlap 14 20 [(11, 15, "A"), (15, 20, "B")] 1 =
      Except.error (overlapMessage "A" 2 14 15 1) ∧
    validate_date_overlap 11 15 [(15, 20, "B")] 1 = Except.ok () := by
  have h := validate_date_overlap_first_violation 14 20 1 [(11, 15, "A"), (15, 20, "B")]
    (by decide)
  have h2 := validate_date_overlap_first_violation 11 15 1 [(15, 20, "B")] (by decide)
  constructor
  · rw [h.1]
    rfl
  · rw [h2.2]
    decide

/-- **C2.** `validate_dates_within_range` passes iff
`range_start <= start_date` and `end_date <= range_end` (containment is
inclusive on both ends, so a candidate exactly equal to the bounds passes),
and otherwise errs with the message carrying the bounding range. -/
theorem validate_dates_within_range_spec
    (start_date end_date range_start range_end : Int) (range_name : String) :
    (validate_dates_within_range start_date end_date range_start range_end range_name =
        Except.ok () ↔
      range_start ≤ start_date ∧ end_date ≤ range_end) ∧
    (validate_dates_within_range range_start range_end range_start range_end range_name =
      Except.ok ()) ∧
    (validate_dates_within_range start_date end_date range_start range_end range_name =
        Except.ok () ∨
      validate_dates_within_range start_date end_date range_start range_end range_name =
        Except.error (withinRangeMessage range_name range_start range_end)) := by
  refine ⟨?_, ?_, ?_⟩
  · unfold validate_dates_within_range
    by_cases h : start_date < range_start ∨ end_date > range_end
    · rw [if_pos h]
      constructor
      · intro hok
        exact absurd hok (by simp)
      · intro hin
        omega
    · rw [if_neg h]
      constructor
      · intro _
        omega
      · intro _
        rfl
  · unfold validate_dates_within_range
    rw [if_neg (by omega)]
  · unfold validate_dates_within_range
    by_cases h : start_date < range_start ∨ end_date > range_end
    · right
      rw [if_pos h]
    · left
      rw [if_neg h]

end TravelCompanion
